import Mathlib

/-!
# Verification of the Atoll JSON-RPC client core

A shallow embedding, in Lean 4, of the request-construction and
response-discrimination pipeline of the Atoll crate:

* `src/rpc/rpc_requests.rs` — the `RpcRequest` builder, `Cluster`,
  `Commitment`, `Encoding`, and the response envelope shapes
  (`RpcResponse<T>`, `RpcJsonError`, `JsonError`, `RequestOutcome<T>`);
* `src/rpc/rpc_methods.rs` — `RpcMethod` and the outcome discriminator
  `RpcMethod::is_ok_or`;
* `src/errors.rs` — the `AtollError` taxonomy and the
  `From<minreq::Error> for AtollError` unification.

JSON values are modelled by the inductive `Json` below (numbers restricted
to integers, which is all the envelope shapes ever decode), serde-style
struct deserialization by explicit field-slot recursions that mirror the
derived `Deserialize` visitors (fields consumed in input order, duplicate
known fields rejected, unknown fields ignored, `Option` fields defaulting
to `none` when absent), and a response body — which in Rust is a `&str`
fed to `serde_json::from_str` — by an `Except String Json` value:
`.ok j` is a body that is syntactically valid JSON with parse tree `j`,
`.error e` a body that is not valid JSON text, `e` being the syntax
diagnostic both deserialization attempts would report.
-/

namespace Atoll

/-- JSON parse trees, as produced by `serde_json` / the `json` crate.
Numbers are restricted to integers: every numeric field of the envelope
shapes (`id: u8`, `code: i16`, the request `id`) is integral. -/
inductive Json where
  | null
  | bool (b : Bool)
  | num (n : Int)
  | str (s : String)
  | arr (elems : List Json)
  | obj (fields : List (String × Json))

/-- `RpcMethod` from `rpc_methods.rs`: the closed set of supported calls. -/
inductive RpcMethod where
  | GetAccountInfo
  | GetBalance
  | GetBlock
  | GetBlockHeight
deriving DecidableEq, Fintype

/-- `RpcMethod::to_upper_camel_case` from `rpc_methods.rs`: the wire-name
of each method. -/
def RpcMethod.to_upper_camel_case : RpcMethod → String
  | .GetAccountInfo => "getAccountInfo"
  | .GetBalance => "getBalance"
  | .GetBlock => "getBlock"
  | .GetBlockHeight => "getBlockHeight"

/-- `Cluster` from `rpc_requests.rs`. -/
inductive Cluster where
  | LocalNet
  | DevNet
  | TestNet
  | MainNetBeta
deriving DecidableEq

/-- `impl Default for Cluster` from `rpc_requests.rs`. -/
instance : Inhabited Cluster := ⟨Cluster.DevNet⟩

/-- `Cluster::url` from `rpc_requests.rs`. -/
def Cluster.url : Cluster → String
  | .LocalNet => "https://127.0.0.1:8899"
  | .DevNet => "https://api.devnet.solana.com"
  | .TestNet => "https://api.testnet.solana.com"
  | .MainNetBeta => "https://api.mainnet-beta.solana.com"

/-- The `RpcRequest` builder struct from `rpc_requests.rs`.  The `id`
field is a `u8` in the source; it is modelled as `Nat` (no builder
operation can overflow it, since the only writes are the default `1` and
the caller-supplied byte). -/
structure RpcRequest where
  jsonrpc : String
  id : Nat
  method : RpcMethod
  value : Option Json
  cluster : Cluster
  extras : List (String × Json)

/-- `RpcRequest::new` from `rpc_requests.rs`. -/
def RpcRequest.new : RpcRequest :=
  { jsonrpc := "2.0"
    id := 1
    method := RpcMethod.GetAccountInfo
    value := Option.none
    cluster := Cluster.DevNet
    extras := [] }

/-- `RpcRequest::change_jsonrpc`. -/
def RpcRequest.change_jsonrpc (self : RpcRequest) (jsonrpc : String) : RpcRequest :=
  { self with jsonrpc := jsonrpc }

/-- `RpcRequest::add_value`. -/
def RpcRequest.add_value (self : RpcRequest) (value : Json) : RpcRequest :=
  { self with value := some value }

/-- `RpcRequest::change_cluster`. -/
def RpcRequest.change_cluster (self : RpcRequest) (cluster : Cluster) : RpcRequest :=
  { self with cluster := cluster }

/-- `RpcRequest::add_method`. -/
def RpcRequest.add_method (self : RpcRequest) (method : RpcMethod) : RpcRequest :=
  { self with method := method }

/-- `RpcRequest::add_extra`: pushes `(key, value)` onto the `extras` vector. -/
def RpcRequest.add_extra (self : RpcRequest) (key : String) (value : Json) : RpcRequest :=
  { self with extras := self.extras ++ [(key, value)] }

/-- `RpcRequest::change_id`. -/
def RpcRequest.change_id (self : RpcRequest) (id : Nat) : RpcRequest :=
  { self with id := id }

/-- `json::object::Object::insert` (the `json` crate): overwrite the value
of an existing key in place, else append the new entry. -/
def objInsert : List (String × Json) → String → Json → List (String × Json)
  | [], k, v => [(k, v)]
  | (k', v') :: rest, k, v =>
    if k' = k then (k', v) :: rest else (k', v') :: objInsert rest k v

/-- The `extra_parameters` object built at the start of
`RpcRequest::request`: the extras list folded, in order, into one JSON
object via `Object::insert`. -/
def buildExtrasObject (extras : List (String × Json)) : List (String × Json) :=
  extras.foldl (fun o kv => objInsert o kv.1 kv.2) []

/-- `Option<JsonValue>` to `JsonValue` coercion used by `json::array!`:
`None` serializes as JSON `null`. -/
def optionToJson : Option Json → Json
  | none => Json.null
  | some v => v

/-- The `params` array of the JSON body sealed in `RpcRequest::request`:
one element (the primary value) when the extras object is empty, two
elements (primary value, extras object) otherwise. -/
def RpcRequest.sealedParams (self : RpcRequest) : List Json :=
  let extraParameters := buildExtrasObject self.extras
  if extraParameters.isEmpty then
    [optionToJson self.value]
  else
    [optionToJson self.value, Json.obj extraParameters]

/-- The full JSON envelope sealed in `RpcRequest::request`
(`json::object! \x7b jsonrpc, id, method, params \x7d`). -/
def RpcRequest.sealedBody (self : RpcRequest) : Json :=
  Json.obj
    [("jsonrpc", Json.str self.jsonrpc),
     ("id", Json.num self.id),
     ("method", Json.str self.method.to_upper_camel_case),
     ("params", Json.arr self.sealedParams)]

/-- First-match association lookup on a JSON object's field list (how a
key of a `json` crate object is read). -/
def firstAssoc (k : String) : List (String × Json) → Option Json
  | [] => none
  | (k', v) :: rest => if k' = k then some v else firstAssoc k rest

/-- The value of the LAST pair with key `k` in a raw (possibly
key-duplicating) extras list. -/
def lastAssoc (k : String) : List (String × Json) → Option Json
  | [] => none
  | (k', v) :: rest =>
    match lastAssoc k rest with
    | some w => some w
    | none => if k' = k then some v else none

/-- `RpcResponse<T>` from `rpc_requests.rs`: the success envelope.
`id` is a `u8` in the source, modelled as a `Nat` that the decoder only
ever populates with values below 256. -/
structure RpcResponse (T : Type) where
  jsonrpc : String
  id : Nat
  result : T

/-- `JsonError` from `rpc_requests.rs`: the inner protocol-error record.
`code` is an `i16` in the source, modelled as an `Int` the decoder bounds
to the i16 range. -/
structure JsonError where
  code : Int
  message : String
  data : Option String

/-- `RpcJsonError` from `rpc_requests.rs`: the protocol-error envelope. -/
structure RpcJsonError where
  jsonrpc : String
  id : Nat
  error : JsonError

/-- `RequestOutcome<T>` from `rpc_requests.rs`. -/
inductive RequestOutcome (T : Type) where
  | Success (response : RpcResponse T)
  | InvalidJson (jsonError : RpcJsonError)

/-- The `Minreq` enum from `errors.rs`: Atoll's owned mirror of the
transport failure kinds, payloads rendered to strings. -/
inductive Minreq where
  | InvalidUtf8InBody (s : String)
  | RustlsCreateConnection (s : String)
  | MalformedChunkLength
  | MalformedChunkEnd
  | MalformedContentLength
  | HeadersOverflow
  | StatusLineOverflow
  | AddressNotFound
  | RedirectLocationMissing
  | InfiniteRedirectionLoop
  | TooManyRedirections
  | InvalidUtf8InResponse
  | PunycodeConversionFailed
  | HttpsFeatureNotEnabled
  | PunycodeFeatureNotEnabled
  | BadProxy
  | BadProxyCreds
  | ProxyConnect
  | InvalidProxyCreds
  | Other (s : String)
deriving DecidableEq

/-- The external `web3utilities::UtilitiesError`, reached only through the
`IoError` arm of the unification; its payload is modelled as the rendered
I/O error string. -/
inductive UtilitiesError where
  | Io (s : String)
deriving DecidableEq

/-- `AtollError` from `errors.rs`: the unified error taxonomy. -/
inductive AtollError where
  | Utilities (e : UtilitiesError)
  | UnsupportedSolanaRpcMethod
  | Http (m : Minreq)
  | SerdeJsonDeser (s : String)
deriving DecidableEq

/-- The external `minreq::Error` enum, exactly the variants matched by
`impl From<minreq::Error> for AtollError` in `errors.rs`.  Error payloads
(`Utf8Error`, rustls error, `io::Error`, the `Other` diagnostic) are
modelled as their rendered strings, which is all the conversion keeps of
them (`.to_string()`). -/
inductive MinreqError where
  | InvalidUtf8InBody (s : String)
  | RustlsCreateConnection (s : String)
  | IoError (s : String)
  | MalformedChunkLength
  | MalformedChunkEnd
  | MalformedContentLength
  | HeadersOverflow
  | StatusLineOverflow
  | AddressNotFound
  | RedirectLocationMissing
  | InfiniteRedirectionLoop
  | TooManyRedirections
  | InvalidUtf8InResponse
  | PunycodeConversionFailed
  | HttpsFeatureNotEnabled
  | PunycodeFeatureNotEnabled
  | BadProxy
  | BadProxyCreds
  | ProxyConnect
  | InvalidProxyCreds
  | Other (s : String)
deriving DecidableEq

/-- `impl From<minreq::Error> for AtollError` from `errors.rs`. -/
def AtollError.fromMinreq : MinreqError → AtollError
  | .InvalidUtf8InBody s => .Http (.InvalidUtf8InBody s)
  | .RustlsCreateConnection s => .Http (.RustlsCreateConnection s)
  | .IoError s => .Utilities (.Io s)
  | .MalformedChunkLength => .Http .MalformedChunkLength
  | .MalformedChunkEnd => .Http .MalformedChunkEnd
  | .MalformedContentLength => .Http .MalformedContentLength
  | .HeadersOverflow => .Http .HeadersOverflow
  | .StatusLineOverflow => .Http .StatusLineOverflow
  | .AddressNotFound => .Http .AddressNotFound
  | .RedirectLocationMissing => .Http .RedirectLocationMissing
  | .InfiniteRedirectionLoop => .Http .InfiniteRedirectionLoop
  | .TooManyRedirections => .Http .TooManyRedirections
  | .InvalidUtf8InResponse => .Http .InvalidUtf8InResponse
  | .PunycodeConversionFailed => .Http .PunycodeConversionFailed
  | .HttpsFeatureNotEnabled => .Http .HttpsFeatureNotEnabled
  | .PunycodeFeatureNotEnabled => .Http .PunycodeFeatureNotEnabled
  | .BadProxy => .Http .BadProxy
  | .BadProxyCreds => .Http .BadProxyCreds
  | .ProxyConnect => .Http .ProxyConnect
  | .InvalidProxyCreds => .Http .InvalidProxyCreds
  | .Other s => .Http (.Other s)

/-- Whether a `minreq::Error` is the `IoError` variant (the one arm of the
unification that targets `Utilities`, not `Http`). -/
def MinreqError.isIo : MinreqError → Bool
  | .IoError _ => true
  | _ => false

/-- serde deserialization of a `String` field from a JSON value. -/
def decodeString : Json → Except String String
  | .str s => .ok s
  | _ => .error "invalid type, expected a string"

/-- Whether a JSON value is an integer representable as a `u8`. -/
def isU8 : Json → Bool
  | .num n => decide (0 ≤ n) && decide (n < 256)
  | _ => false

/-- serde deserialization of a `u8` field from a JSON value. -/
def decodeU8 : Json → Except String Nat
  | .num n => if 0 ≤ n ∧ n < 256 then .ok n.toNat else .error "invalid value, expected u8"
  | _ => .error "invalid type, expected u8"

/-- serde deserialization of an `i16` field from a JSON value. -/
def decodeI16 : Json → Except String Int
  | .num n => if -32768 ≤ n ∧ n < 32768 then .ok n else .error "invalid value, expected i16"
  | _ => .error "invalid type, expected i16"

/-- serde deserialization of an `Option<String>` field value (`null`
becomes `none`). -/
def decodeOptString : Json → Except String (Option String)
  | .null => .ok none
  | .str s => .ok (some s)
  | _ => .error "invalid type, expected a string or null"

/-- The field loop of the derived `Deserialize` visitor for
`RpcResponse<T>` with `serde_path_to_error` path tracking (the first,
success-shape attempt of `is_ok_or`): fields are consumed in input order,
a duplicate known field is an error, unknown fields are skipped, and a
field-value failure is rendered behind the field's path segment.  Slots
hold the already-seen fields `jsonrpc`, `id`, `result`. -/
def respFields {T : Type} (decT : Json → Except String T) :
    List (String × Json) → Option String → Option Nat → Option T →
    Except String (Option String × Option Nat × Option T)
  | [], js, idv, res => .ok (js, idv, res)
  | (k, v) :: rest, js, idv, res =>
    if k = "jsonrpc" then
      match js with
      | some _ => .error ".: duplicate field jsonrpc"
      | none =>
        match decodeString v with
        | .error e => .error ("jsonrpc: " ++ e)
        | .ok s => respFields decT rest (some s) idv res
    else if k = "id" then
      match idv with
      | some _ => .error ".: duplicate field id"
      | none =>
        match decodeU8 v with
        | .error e => .error ("id: " ++ e)
        | .ok n => respFields decT rest js (some n) res
    else if k = "result" then
      match res with
      | some _ => .error ".: duplicate field result"
      | none =>
        match decT v with
        | .error e => .error ("result: " ++ e)
        | .ok t => respFields decT rest js idv (some t)
    else respFields decT rest js idv res

/-- Deserialization of the success envelope `RpcResponse<T>` from a JSON
parse tree, with `serde_path_to_error`-style rendered diagnostics
(top-level failures behind the root path segment). -/
def decodeRpcResponse {T : Type} (decT : Json → Except String T) (j : Json) :
    Except String (RpcResponse T) :=
  match j with
  | .obj fields =>
    match respFields decT fields none none none with
    | .error e => .error e
    | .ok (js, idv, res) =>
      match js with
      | none => .error ".: missing field jsonrpc"
      | some jsv =>
        match idv with
        | none => .error ".: missing field id"
        | some idn =>
          match res with
          | none => .error ".: missing field result"
          | some t => .ok { jsonrpc := jsv, id := idn, result := t }
  | _ => .error ".: invalid type, expected struct RpcResponse"

/-- The field loop of the derived `Deserialize` visitor for `JsonError`
(plain `serde_json`, no path wrapper).  The `data` slot is doubled
(`Option (Option String)`) to separate "field absent" from "field null":
a missing `Option` field deserializes to `none` without error. -/
def jsonErrorFields :
    List (String × Json) → Option Int → Option String → Option (Option String) →
    Except String (Option Int × Option String × Option (Option String))
  | [], c, msg, d => .ok (c, msg, d)
  | (k, v) :: rest, c, msg, d =>
    if k = "code" then
      match c with
      | some _ => .error "duplicate field code"
      | none =>
        match decodeI16 v with
        | .error e => .error e
        | .ok n => jsonErrorFields rest (some n) msg d
    else if k = "message" then
      match msg with
      | some _ => .error "duplicate field message"
      | none =>
        match decodeString v with
        | .error e => .error e
        | .ok s => jsonErrorFields rest c (some s) d
    else if k = "data" then
      match d with
      | some _ => .error "duplicate field data"
      | none =>
        match decodeOptString v with
        | .error e => .error e
        | .ok o => jsonErrorFields rest c msg (some o)
    else jsonErrorFields rest c msg d

/-- Deserialization of the inner `JsonError` record from a JSON parse
tree. -/
def decodeJsonError (j : Json) : Except String JsonError :=
  match j with
  | .obj fields =>
    match jsonErrorFields fields none none none with
    | .error e => .error e
    | .ok (c, msg, d) =>
      match c with
      | none => .error "missing field code"
      | some code =>
        match msg with
        | none => .error "missing field message"
        | some message => .ok { code := code, message := message, data := d.getD none }
  | _ => .error "invalid type, expected struct JsonError"

/-- The field loop of the derived `Deserialize` visitor for
`RpcJsonError` (plain `serde_json`, the second, error-shape attempt of
`is_ok_or`). -/
def rpcJsonErrorFields :
    List (String × Json) → Option String → Option Nat → Option JsonError →
    Except String (Option String × Option Nat × Option JsonError)
  | [], js, idv, err => .ok (js, idv, err)
  | (k, v) :: rest, js, idv, err =>
    if k = "jsonrpc" then
      match js with
      | some _ => .error "duplicate field jsonrpc"
      | none =>
        match decodeString v with
        | .error e => .error e
        | .ok s => rpcJsonErrorFields rest (some s) idv err
    else if k = "id" then
      match idv with
      | some _ => .error "duplicate field id"
      | none =>
        match decodeU8 v with
        | .error e => .error e
        | .ok n => rpcJsonErrorFields rest js (some n) err
    else if k = "error" then
      match err with
      | some _ => .error "duplicate field error"
      | none =>
        match decodeJsonError v with
        | .error e => .error e
        | .ok je => rpcJsonErrorFields rest js idv (some je)
    else rpcJsonErrorFields rest js idv err

/-- Deserialization of the protocol-error envelope `RpcJsonError` from a
JSON parse tree. -/
def decodeRpcJsonError (j : Json) : Except String RpcJsonError :=
  match j with
  | .obj fields =>
    match rpcJsonErrorFields fields none none none with
    | .error e => .error e
    | .ok (js, idv, err) =>
      match js with
      | none => .error "missing field jsonrpc"
      | some jsv =>
        match idv with
        | none => .error "missing field id"
        | some idn =>
          match err with
          | none => .error "missing field error"
          | some je => .ok { jsonrpc := jsv, id := idn, error := je }
  | _ => .error "invalid type, expected struct RpcJsonError"

/-- The first attempt of `is_ok_or`:
`serde_path_to_error::deserialize` of the body text into
`RpcResponse<T>`.  A body that is not valid JSON text fails with its
syntax diagnostic behind the root path segment. -/
def deserSuccess {T : Type} (decT : Json → Except String T) :
    Except String Json → Except String (RpcResponse T)
  | .error e => .error (".: " ++ e)
  | .ok j => decodeRpcResponse decT j

/-- The second attempt of `is_ok_or`:
`serde_json::from_str::<RpcJsonError>` of the body text. -/
def deserJsonErrShape : Except String Json → Except String RpcJsonError
  | .error e => .error e
  | .ok j => decodeRpcJsonError j

/-- `RpcMethod::is_ok_or` from `rpc_methods.rs`: try the success envelope
first; on failure try the protocol-error envelope; if both fail, surface
the FIRST attempt's diagnostic as `SerdeJsonDeser`. -/
def RpcMethod.is_ok_or {T : Type} (_self : RpcMethod) (decT : Json → Except String T)
    (responseBody : Except String Json) : Except AtollError (RequestOutcome T) :=
  match deserSuccess decT responseBody with
  | .ok success => .ok (RequestOutcome.Success success)
  | .error serdePathError =>
    match deserJsonErrShape responseBody with
    | .ok jsonError => .ok (RequestOutcome.InvalidJson jsonError)
    | .error _ => .error (AtollError.SerdeJsonDeser serdePathError)

/-- Per-character case mapping of Rust's `str::to_lowercase`, on the
ASCII alphabet the recognized commitment/encoding names draw from. -/
def rustCharToLower : Char → Char
  | 'A' => 'a'
  | 'B' => 'b'
  | 'C' => 'c'
  | 'D' => 'd'
  | 'E' => 'e'
  | 'F' => 'f'
  | 'G' => 'g'
  | 'H' => 'h'
  | 'I' => 'i'
  | 'J' => 'j'
  | 'K' => 'k'
  | 'L' => 'l'
  | 'M' => 'm'
  | 'N' => 'n'
  | 'O' => 'o'
  | 'P' => 'p'
  | 'Q' => 'q'
  | 'R' => 'r'
  | 'S' => 's'
  | 'T' => 't'
  | 'U' => 'u'
  | 'V' => 'v'
  | 'W' => 'w'
  | 'X' => 'x'
  | 'Y' => 'y'
  | 'Z' => 'z'
  | c => c

/-- Rust's `str::to_lowercase`: lower-case every character. -/
def rustToLowercase (s : String) : String :=
  ⟨s.data.map rustCharToLower⟩

/-- `Commitment` from `rpc_requests.rs`. -/
inductive Commitment where
  | Processed
  | Confirmed
  | Finalized
  | InvalidCommitment
deriving DecidableEq

/-- `impl Default for Commitment` from `rpc_requests.rs`. -/
instance : Inhabited Commitment := ⟨Commitment.Finalized⟩

/-- `impl From<&str> for Commitment` from `rpc_requests.rs`: match on the
lowercased input, with a sentinel fallback. -/
def Commitment.fromStr (value : String) : Commitment :=
  let lowered := rustToLowercase value
  if lowered = "processed" then Commitment.Processed
  else if lowered = "confirmed" then Commitment.Confirmed
  else if lowered = "finalized" then Commitment.Finalized
  else Commitment.InvalidCommitment

/-- `Encoding` from `rpc_requests.rs`. -/
inductive Encoding where
  | Base58
  | Base64
  | UnsupportedEncoding
deriving DecidableEq

/-- `impl From<&str> for Encoding` from `rpc_requests.rs`: match on the
lowercased input, with a sentinel fallback. -/
def Encoding.fromStr (value : String) : Encoding :=
  let lowered := rustToLowercase value
  if lowered = "base58" then Encoding.Base58
  else if lowered = "base64" then Encoding.Base64
  else Encoding.UnsupportedEncoding

end Atoll


namespace Atoll

/-! ## Helper lemmas -/

theorem objInsert_ne_nil (o : List (String × Json)) (k : String) (v : Json) :
    objInsert o k v ≠ [] := by
  match o with
  | [] => simp [objInsert]
  | (k0, v0) :: rest =>
    simp only [objInsert]
    split <;> simp

theorem foldl_objInsert_ne_nil (extras : List (String × Json)) :
    ∀ o : List (String × Json), o ≠ [] →
      extras.foldl (fun o kv => objInsert o kv.1 kv.2) o ≠ [] := by
  induction extras with
  | nil => intro o h; simpa using h
  | cons kv rest ih =>
    intro o h
    simpa using ih (objInsert o kv.1 kv.2) (objInsert_ne_nil o kv.1 kv.2)

theorem buildExtrasObject_eq_nil_iff (extras : List (String × Json)) :
    buildExtrasObject extras = [] ↔ extras = [] := by
  constructor
  · intro h
    match extras with
    | [] => rfl
    | kv :: rest =>
      exfalso
      apply foldl_objInsert_ne_nil rest (objInsert [] kv.1 kv.2)
        (objInsert_ne_nil [] kv.1 kv.2)
      simpa [buildExtrasObject, List.foldl] using h
  · intro h; subst h; rfl

theorem firstAssoc_objInsert (q k : String) (v : Json) (o : List (String × Json)) :
    firstAssoc q (objInsert o k v) = if k = q then some v else firstAssoc q o := by
  induction o with
  | nil => simp [objInsert, firstAssoc]
  | cons hd rest ih =>
    obtain ⟨k0, v0⟩ := hd
    simp only [objInsert]
    by_cases h0 : k0 = k
    · subst h0
      by_cases hq : k0 = q <;> simp [firstAssoc, hq]
    · rw [if_neg h0]
      by_cases hq : k0 = q
      · subst hq
        have hkq : ¬ k = k0 := fun hc => h0 hc.symm
        simp [firstAssoc, hkq]
      · simp [firstAssoc, hq, ih]

theorem firstAssoc_foldl_objInsert (q : String) (extras : List (String × Json)) :
    ∀ o : List (String × Json),
      firstAssoc q (extras.foldl (fun o kv => objInsert o kv.1 kv.2) o)
        = match lastAssoc q extras with
          | some w => some w
          | none => firstAssoc q o := by
  induction extras with
  | nil => intro o; simp [lastAssoc]
  | cons kv rest ih =>
    intro o
    obtain ⟨k0, v0⟩ := kv
    simp only [List.foldl, lastAssoc]
    rw [ih]
    rcases h : lastAssoc q rest with _ | w
    · simp only [firstAssoc_objInsert]
      by_cases hq : k0 = q <;> simp [hq]
    · rfl

theorem firstAssoc_buildExtrasObject (q : String) (extras : List (String × Json)) :
    firstAssoc q (buildExtrasObject extras) = lastAssoc q extras := by
  rw [buildExtrasObject, firstAssoc_foldl_objInsert]
  rcases h : lastAssoc q extras with _ | w <;> simp [firstAssoc]

theorem rustCharToLower_fix_or_lower (c : Char) :
    rustCharToLower c = c ∨ rustCharToLower c ∈ "abcdefghijklmnopqrstuvwxyz".data := by
  unfold rustCharToLower
  split <;> first | (left; rfl) | (right; decide)

theorem rustCharToLower_fix_of_lower :
    ∀ d ∈ "abcdefghijklmnopqrstuvwxyz".data, rustCharToLower d = d := by
  decide

theorem rustCharToLower_idem (c : Char) :
    rustCharToLower (rustCharToLower c) = rustCharToLower c := by
  rcases rustCharToLower_fix_or_lower c with h | h
  · rw [h]
    exact h
  · exact rustCharToLower_fix_of_lower _ h

theorem rustToLowercase_idem (s : String) :
    rustToLowercase (rustToLowercase s) = rustToLowercase s := by
  show String.mk ((s.data.map rustCharToLower).map rustCharToLower)
      = String.mk (s.data.map rustCharToLower)
  rw [List.map_map]
  congr 1
  apply List.map_congr_left
  intro c _
  exact rustCharToLower_idem c

theorem decodeU8_error_of_not_u8 (v : Json) (hv : isU8 v = false) :
    ∃ e, decodeU8 v = Except.error e := by
  match v with
  | .null | .bool _ | .str _ | .arr _ | .obj _ => exact ⟨_, rfl⟩
  | .num n =>
    simp only [isU8, Bool.and_eq_false_iff, decide_eq_false_iff_not, not_lt, not_le] at hv
    simp only [decodeU8]
    rw [if_neg]
    · exact ⟨_, rfl⟩
    · rintro ⟨h1, h2⟩
      rcases hv with hv | hv
      · exact absurd h1 (not_le.mpr hv)
      · exact absurd h2 (not_lt.mpr hv)

end Atoll


namespace Atoll

theorem respFields_error_of_bad_id {T : Type} (decT : Json → Except String T) (v : Json)
    (hv : isU8 v = false) :
    ∀ (fields : List (String × Json)) (js : Option String) (idv : Option Nat) (res : Option T),
      ("id", v) ∈ fields → ∃ e, respFields decT fields js idv res = Except.error e := by
  intro fields
  induction fields with
  | nil =>
    intro js idv res h
    cases h
  | cons hd rest ih =>
    intro js idv res h
    obtain ⟨k, w⟩ := hd
    rcases List.mem_cons.mp h with heq | htail
    · obtain ⟨hk, hw⟩ := Prod.mk.injEq .. ▸ heq.symm
      subst hk
      subst hw
      simp only [respFields, reduceIte]
      cases idv with
      | some n => exact ⟨_, rfl⟩
      | none =>
        obtain ⟨e, he⟩ := decodeU8_error_of_not_u8 _ hv
        rw [he]
        exact ⟨_, rfl⟩
    · simp only [respFields]
      by_cases hk1 : k = "jsonrpc"
      · rw [if_pos hk1]
        cases js with
        | some s => exact ⟨_, rfl⟩
        | none =>
          cases hds : decodeString w with
          | error e => exact ⟨_, rfl⟩
          | ok s => exact ih _ _ _ htail
      · rw [if_neg hk1]
        by_cases hk2 : k = "id"
        · rw [if_pos hk2]
          cases idv with
          | some n => exact ⟨_, rfl⟩
          | none =>
            cases hdu : decodeU8 w with
            | error e => exact ⟨_, rfl⟩
            | ok n => exact ih _ _ _ htail
        · rw [if_neg hk2]
          by_cases hk3 : k = "result"
          · rw [if_pos hk3]
            cases res with
            | some t => exact ⟨_, rfl⟩
            | none =>
              cases hdt : decT w with
              | error e => exact ⟨_, rfl⟩
              | ok t => exact ih _ _ _ htail
          · rw [if_neg hk3]
            exact ih _ _ _ htail

end Atoll

namespace Atoll

theorem rpcJsonErrorFields_error_of_bad_id (v : Json)
    (hv : isU8 v = false) :
    ∀ (fields : List (String × Json)) (js : Option String) (idv : Option Nat) (err : Option JsonError),
      ("id", v) ∈ fields → ∃ e, rpcJsonErrorFields fields js idv err = Except.error e := by
  intro fields
  induction fields with
  | nil =>
    intro js idv err h
    cases h
  | cons hd rest ih =>
    intro js idv err h
    obtain ⟨k, w⟩ := hd
    rcases List.mem_cons.mp h with heq | htail
    · obtain ⟨hk, hw⟩ := Prod.mk.injEq .. ▸ heq.symm
      subst hk
      subst hw
      simp only [rpcJsonErrorFields, reduceIte]
      cases idv with
      | some n => exact ⟨_, rfl⟩
      | none =>
        obtain ⟨e, he⟩ := decodeU8_error_of_not_u8 _ hv
        rw [he]
        exact ⟨_, rfl⟩
    · simp only [rpcJsonErrorFields]
      by_cases hk1 : k = "jsonrpc"
      · rw [if_pos hk1]
        cases js with
        | some s => exact ⟨_, rfl⟩
        | none =>
          cases hds : decodeString w with
          | error e => exact ⟨_, rfl⟩
          | ok s => exact ih _ _ _ htail
      · rw [if_neg hk1]
        by_cases hk2 : k = "id"
        · rw [if_pos hk2]
          cases idv with
          | some n => exact ⟨_, rfl⟩
          | none =>
            cases hdu : decodeU8 w with
            | error e => exact ⟨_, rfl⟩
            | ok n => exact ih _ _ _ htail
        · rw [if_neg hk2]
          by_cases hk3 : k = "error"
          · rw [if_pos hk3]
            cases err with
            | some je => exact ⟨_, rfl⟩
            | none =>
              cases hde : decodeJsonError w with
              | error e => exact ⟨_, rfl⟩
              | ok je => exact ih _ _ _ htail
          · rw [if_neg hk3]
            exact ih _ _ _ htail

end Atoll

namespace Atoll

/-! ## Claim theorems -/

/-- C1: `is_ok_or` first attempts the success envelope; if that decode
succeeds it yields `Success` (even when the body would also match the
error envelope); only on its failure is the protocol-error envelope
attempted, yielding `InvalidJson` on success of that second attempt. -/
theorem is_ok_or_first_match_wins {T : Type} (self : RpcMethod)
    (decT : Json → Except String T) (body : Except String Json) :
    (∀ env : RpcResponse T, deserSuccess decT body = Except.ok env →
      self.is_ok_or decT body = Except.ok (RequestOutcome.Success env)) ∧
    (∀ (e1 : String) (jerr : RpcJsonError), deserSuccess decT body = Except.error e1 →
      deserJsonErrShape body = Except.ok jerr →
      self.is_ok_or decT body = Except.ok (RequestOutcome.InvalidJson jerr)) := by
  constructor
  · intro env h
    unfold RpcMethod.is_ok_or
    rw [h]
  · intro e1 jerr h1 h2
    unfold RpcMethod.is_ok_or
    rw [h1, h2]

/-- Witness for C1: a body matching both envelope shapes yields `Success`
(the first structural match wins), and an error-envelope body yields
`InvalidJson`. -/
theorem is_ok_or_first_match_wins_witness :
    RpcMethod.GetBalance.is_ok_or Except.ok
        (Except.ok (Json.obj [("jsonrpc", Json.str "2.0"), ("id", Json.num 1),
          ("result", Json.null),
          ("error", Json.obj [("code", Json.num (-32602)),
            ("message", Json.str "Invalid params")])]))
      = Except.ok (RequestOutcome.Success ⟨"2.0", 1, Json.null⟩) ∧
    RpcMethod.GetBalance.is_ok_or Except.ok
        (Except.ok (Json.obj [("jsonrpc", Json.str "2.0"), ("id", Json.num 1),
          ("error", Json.obj [("code", Json.num (-32602)),
            ("message", Json.str "Invalid params")])]))
      = Except.ok (RequestOutcome.InvalidJson ⟨"2.0", 1, ⟨-32602, "Invalid params", none⟩⟩) :=
  ⟨(is_ok_or_first_match_wins RpcMethod.GetBalance Except.ok _).1 _ rfl,
   (is_ok_or_first_match_wins RpcMethod.GetBalance Except.ok _).2
     ".: missing field result" _ rfl rfl⟩

/-- C2: when the body matches neither envelope shape, `is_ok_or` returns
a `SerdeJsonDeser` error carrying the FIRST attempt's (success-shape)
diagnostic, not the second attempt's, and produces no `RequestOutcome`. -/
theorem is_ok_or_surfaces_first_failure {T : Type} (self : RpcMethod)
    (decT : Json → Except String T) (body : Except String Json) (e1 e2 : String)
    (h1 : deserSuccess decT body = Except.error e1)
    (h2 : deserJsonErrShape body = Except.error e2) :
    self.is_ok_or decT body = Except.error (AtollError.SerdeJsonDeser e1) := by
  unfold RpcMethod.is_ok_or
  rw [h1, h2]

/-- Witness for C2: the body from the spec scenario matching neither
shape surfaces the success-path diagnostic. -/
theorem is_ok_or_surfaces_first_failure_witness :
    RpcMethod.GetAccountInfo.is_ok_or (T := Json) Except.ok
        (Except.ok (Json.obj [("not", Json.str "recognized")]))
      = Except.error (AtollError.SerdeJsonDeser ".: missing field jsonrpc") :=
  is_ok_or_surfaces_first_failure RpcMethod.GetAccountInfo Except.ok _
    ".: missing field jsonrpc" "missing field jsonrpc" rfl rfl

/-- C3: the sealed `params` array has one element (the primary value)
when the extras list is empty and two elements otherwise, the second
being the object obtained by folding the extras in list order with
last-write-wins key semantics. -/
theorem sealedParams_spec (rq : RpcRequest) :
    rq.sealedParams = (if rq.extras.isEmpty then [optionToJson rq.value]
      else [optionToJson rq.value, Json.obj (buildExtrasObject rq.extras)]) ∧
    ∀ k : String, firstAssoc k (buildExtrasObject rq.extras) = lastAssoc k rq.extras := by
  constructor
  · by_cases he : rq.extras = []
    · simp [RpcRequest.sealedParams, he, buildExtrasObject]
    · have h1 : buildExtrasObject rq.extras ≠ [] := fun hc =>
        he ((buildExtrasObject_eq_nil_iff rq.extras).mp hc)
      simp [RpcRequest.sealedParams, he, h1]
  · intro k
    exact firstAssoc_buildExtrasObject k rq.extras

/-- C4: every transport-layer failure kind other than `IoError` is mapped
by the unification into a `Http(...)` variant, and the mapping is
one-to-one on those kinds. -/
theorem fromMinreq_http_one_to_one :
    (∀ e : MinreqError, e.isIo = false →
      ∃ m : Minreq, AtollError.fromMinreq e = AtollError.Http m) ∧
    (∀ e1 e2 : MinreqError, e1.isIo = false → e2.isIo = false →
      AtollError.fromMinreq e1 = AtollError.fromMinreq e2 → e1 = e2) := by
  constructor
  · intro e h
    cases e <;> first | exact ⟨_, rfl⟩ | simp_all [MinreqError.isIo]
  · intro e1 e2 h1 h2 he
    cases e1 <;> cases e2 <;> simp_all [AtollError.fromMinreq, MinreqError.isIo]

/-- Witness for C4: the catch-all `Other` diagnostic lands in `Http`, and
the mapping applied at a concrete pair is injective. -/
theorem fromMinreq_http_one_to_one_witness :
    (∃ m : Minreq, AtollError.fromMinreq (MinreqError.Other "diagnostic")
      = AtollError.Http m) ∧
    MinreqError.MalformedChunkEnd = MinreqError.MalformedChunkEnd :=
  ⟨fromMinreq_http_one_to_one.1 (MinreqError.Other "diagnostic") rfl,
   fromMinreq_http_one_to_one.2 MinreqError.MalformedChunkEnd MinreqError.MalformedChunkEnd
     rfl rfl rfl⟩

/-- C5: `RpcRequest::new` yields exactly the documented defaults:
protocol version "2.0", identifier 1, method `GetAccountInfo` (the first
variant), no primary value, the `DevNet` (default) cluster, and an empty
extras list. -/
theorem new_defaults :
    RpcRequest.new.jsonrpc = "2.0" ∧ RpcRequest.new.id = 1 ∧
    RpcRequest.new.method = RpcMethod.GetAccountInfo ∧
    RpcRequest.new.value = none ∧
    RpcRequest.new.cluster = Cluster.DevNet ∧
    (default : Cluster) = Cluster.DevNet ∧
    RpcRequest.new.extras = [] :=
  ⟨rfl, rfl, rfl, rfl, rfl, rfl, rfl⟩

/-- C6: the method enumeration has exactly four variants, the wire-name
mapping is the documented table, and distinct variants map to distinct
wire-names (the mapping is injective). -/
theorem to_upper_camel_case_spec :
    Fintype.card RpcMethod = 4 ∧
    RpcMethod.to_upper_camel_case RpcMethod.GetAccountInfo = "getAccountInfo" ∧
    RpcMethod.to_upper_camel_case RpcMethod.GetBalance = "getBalance" ∧
    RpcMethod.to_upper_camel_case RpcMethod.GetBlock = "getBlock" ∧
    RpcMethod.to_upper_camel_case RpcMethod.GetBlockHeight = "getBlockHeight" ∧
    (∀ m1 m2 : RpcMethod,
      RpcMethod.to_upper_camel_case m1 = RpcMethod.to_upper_camel_case m2 → m1 = m2) := by
  refine ⟨rfl, rfl, rfl, rfl, rfl, ?_⟩
  decide

/-- Witness for C6: the injectivity clause applied at a concrete input. -/
theorem to_upper_camel_case_spec_witness : RpcMethod.GetBlock = RpcMethod.GetBlock :=
  to_upper_camel_case_spec.2.2.2.2.2 RpcMethod.GetBlock RpcMethod.GetBlock rfl

/-- C7: the string conversions for `Commitment` and `Encoding` are total:
an input whose lowercase form is not a recognized name yields the sentinel
variant (and only such inputs do), and each recognized name yields its
corresponding non-sentinel variant. -/
theorem fromStr_total_sentinel (s : String) :
    (Commitment.fromStr s = Commitment.InvalidCommitment ↔
      (rustToLowercase s ≠ "processed" ∧ rustToLowercase s ≠ "confirmed" ∧
        rustToLowercase s ≠ "finalized")) ∧
    Commitment.fromStr "processed" = Commitment.Processed ∧
    Commitment.fromStr "confirmed" = Commitment.Confirmed ∧
    Commitment.fromStr "finalized" = Commitment.Finalized ∧
    (Encoding.fromStr s = Encoding.UnsupportedEncoding ↔
      (rustToLowercase s ≠ "base58" ∧ rustToLowercase s ≠ "base64")) ∧
    Encoding.fromStr "base58" = Encoding.Base58 ∧
    Encoding.fromStr "base64" = Encoding.Base64 := by
  refine ⟨?_, rfl, rfl, rfl, ?_, rfl, rfl⟩
  · unfold Commitment.fromStr
    dsimp only
    split_ifs with h1 h2 h3 <;> simp_all
  · unfold Encoding.fromStr
    dsimp only
    split_ifs with h1 h2 <;> simp_all

/-- Witness for C7: an unrecognized input maps to the sentinel. -/
theorem fromStr_total_sentinel_witness :
    Commitment.fromStr "weird" = Commitment.InvalidCommitment :=
  (fromStr_total_sentinel "weird").1.mpr (by decide)

/-- C8: each setter consumes the builder and changes only its own field;
`add_extra` only appends, so a repeated key retains the earlier entry. -/
theorem setters_frame (rq : RpcRequest) (s : String) (v w : Json) (c : Cluster)
    (m : RpcMethod) (n : Nat) (k q : String) :
    (rq.change_jsonrpc s).jsonrpc = s ∧
    (rq.change_jsonrpc s).id = rq.id ∧
    (rq.change_jsonrpc s).method = rq.method ∧
    (rq.change_jsonrpc s).value = rq.value ∧
    (rq.change_jsonrpc s).cluster = rq.cluster ∧
    (rq.change_jsonrpc s).extras = rq.extras ∧
    (rq.add_value v).value = some v ∧
    (rq.add_value v).jsonrpc = rq.jsonrpc ∧
    (rq.add_value v).id = rq.id ∧
    (rq.add_value v).method = rq.method ∧
    (rq.add_value v).cluster = rq.cluster ∧
    (rq.add_value v).extras = rq.extras ∧
    (rq.change_cluster c).cluster = c ∧
    (rq.change_cluster c).jsonrpc = rq.jsonrpc ∧
    (rq.change_cluster c).id = rq.id ∧
    (rq.change_cluster c).method = rq.method ∧
    (rq.change_cluster c).value = rq.value ∧
    (rq.change_cluster c).extras = rq.extras ∧
    (rq.add_method m).method = m ∧
    (rq.add_method m).jsonrpc = rq.jsonrpc ∧
    (rq.add_method m).id = rq.id ∧
    (rq.add_method m).value = rq.value ∧
    (rq.add_method m).cluster = rq.cluster ∧
    (rq.add_method m).extras = rq.extras ∧
    (rq.change_id n).id = n ∧
    (rq.change_id n).jsonrpc = rq.jsonrpc ∧
    (rq.change_id n).method = rq.method ∧
    (rq.change_id n).value = rq.value ∧
    (rq.change_id n).cluster = rq.cluster ∧
    (rq.change_id n).extras = rq.extras ∧
    (rq.add_extra k v).extras = rq.extras ++ [(k, v)] ∧
    (rq.add_extra k v).jsonrpc = rq.jsonrpc ∧
    (rq.add_extra k v).id = rq.id ∧
    (rq.add_extra k v).method = rq.method ∧
    (rq.add_extra k v).value = rq.value ∧
    (rq.add_extra k v).cluster = rq.cluster ∧
    ((rq.add_extra k v).add_extra q w).extras = rq.extras ++ [(k, v), (q, w)] := by
  refine ⟨rfl, rfl, rfl, rfl, rfl, rfl, rfl, rfl, rfl, rfl, rfl, rfl, rfl, rfl, rfl, rfl, rfl,
    rfl, rfl, rfl, rfl, rfl, rfl, rfl, rfl, rfl, rfl, rfl, rfl, rfl, rfl, rfl, rfl, rfl, rfl,
    rfl, ?_⟩
  simp [RpcRequest.add_extra]

/-- C9: both envelope shapes declare `id` as `u8`; a body whose top-level
`id` is not an integer in `0..=255` fails both attempts and `is_ok_or`
returns a `SerdeJsonDeser` decode error, never an outcome. -/
theorem is_ok_or_rejects_non_u8_id {T : Type} (self : RpcMethod)
    (decT : Json → Except String T) (fields : List (String × Json)) (v : Json)
    (hmem : ("id", v) ∈ fields) (hv : isU8 v = false) :
    ∃ msg : String,
      self.is_ok_or decT (Except.ok (Json.obj fields)) =
        Except.error (AtollError.SerdeJsonDeser msg) := by
  obtain ⟨e1, he1⟩ := respFields_error_of_bad_id decT v hv fields none none none hmem
  obtain ⟨e2, he2⟩ := rpcJsonErrorFields_error_of_bad_id v hv fields none none none hmem
  have hs : deserSuccess decT (Except.ok (Json.obj fields)) = Except.error e1 := by
    simp only [deserSuccess, decodeRpcResponse, he1]
  have hj : deserJsonErrShape (Except.ok (Json.obj fields)) = Except.error e2 := by
    simp only [deserJsonErrShape, decodeRpcJsonError, he2]
  refine ⟨e1, ?_⟩
  unfold RpcMethod.is_ok_or
  rw [hs, hj]

/-- Witness for C9: a body with `id` 300 (valid in every other respect)
is rejected with a decode error. -/
theorem is_ok_or_rejects_non_u8_id_witness :
    ∃ msg : String,
      RpcMethod.GetBlockHeight.is_ok_or (T := Json) Except.ok
          (Except.ok (Json.obj [("jsonrpc", Json.str "2.0"), ("id", Json.num 300),
            ("result", Json.null)]))
        = Except.error (AtollError.SerdeJsonDeser msg) :=
  is_ok_or_rejects_non_u8_id RpcMethod.GetBlockHeight Except.ok _ (Json.num 300)
    (List.Mem.tail _ (List.Mem.head _)) rfl

/-- C10: the string conversions for `Commitment` and `Encoding` are
case-insensitive: any input yields the same variant as its lowercase
form. -/
theorem fromStr_case_insensitive (s : String) :
    Commitment.fromStr s = Commitment.fromStr (rustToLowercase s) ∧
    Encoding.fromStr s = Encoding.fromStr (rustToLowercase s) := by
  constructor
  · unfold Commitment.fromStr
    rw [rustToLowercase_idem]
  · unfold Encoding.fromStr
    rw [rustToLowercase_idem]

end Atoll
